import Mathlib

/-!
# Verification of the ziggurat-style zcash conformance/resistance harness

Shallow embedding of the repository's wire codec, message filter and test
scenarios.  Bytes are modelled as `Nat` values (with explicit `< 256` bounds
where the wire format requires them); byte buffers are `List Nat`.  The codec
and filter live outside the test files shipped with the repository, so those
definitions are modelled from the specification, as marked in their doc
comments; the test scenarios (`fuzzing.rs`, `handshake.rs`) are embedded from
the source directly.

The file is organised as definitions first, then the lemmas and the claim
theorems.
-/

namespace ZcashHarness

/-! ## Byte-level primitives -/

/-- Value of a little-endian byte list: `leVal [a, b, c] = a + 256*b + 256^2*c`. -/
def leVal : List Nat → Nat
  | [] => 0
  | b :: t => b + 256 * leVal t

/-- Little-endian encoding of `n` into exactly `k` bytes (truncating mod `256^k`). -/
def leBytes : Nat → Nat → List Nat
  | 0, _ => []
  | k + 1, n => n % 256 :: leBytes k (n / 256)

/-- Modelled from the spec: the error taxonomy of §7 — `TruncatedInput`,
`TrailingBytes`, `MalformedField`, `ChecksumMismatch`, `PayloadTooLarge`,
`HeaderInvalid` — the codec itself is not shipped under `src/`. -/
inductive ParseError where
  | truncatedInput
  | trailingBytes
  | malformedField
  | checksumMismatch
  | payloadTooLarge
  | headerInvalid
  deriving DecidableEq, Repr

/-- Read exactly `k` bytes, returning them with the rest of the input. -/
def rdBytes (k : Nat) (bs : List Nat) : Except ParseError (List Nat × List Nat) :=
  if k ≤ bs.length then .ok (bs.take k, bs.drop k) else .error .truncatedInput

/-- Read a `k`-byte little-endian unsigned integer. -/
def rdLE (k : Nat) (bs : List Nat) : Except ParseError (Nat × List Nat) :=
  match rdBytes k bs with
  | .error e => .error e
  | .ok (xs, rest) => .ok (leVal xs, rest)

/-! ## Compact-size (varint) encoding

Modelled from the spec: §4.2 — variable-length sequences are prefixed by a
compact/varint-style count: values below `0xFD` encode as one byte, larger
values with a marker byte followed by a 2-, 4- or 8-byte little-endian value.
-/

/-- Encode a count in Bitcoin compact-size form. -/
def wrCompact (n : Nat) : List Nat :=
  if n < 0xFD then [n]
  else if n ≤ 0xFFFF then 0xFD :: leBytes 2 n
  else if n ≤ 0xFFFFFFFF then 0xFE :: leBytes 4 n
  else 0xFF :: leBytes 8 n

/-- Decode a compact-size count. -/
def rdCompact (bs : List Nat) : Except ParseError (Nat × List Nat) :=
  match bs with
  | [] => .error .truncatedInput
  | b :: rest =>
    if b < 0xFD then .ok (b, rest)
    else if b = 0xFD then rdLE 2 rest
    else if b = 0xFE then rdLE 4 rest
    else rdLE 8 rest

/-! ## Commands and the message header -/

/-- `MAX_MESSAGE_LEN` from `src/tests/resistance/fuzzing.rs`: 2 MiB. -/
def MAX_MESSAGE_LEN : Nat := 2 * 1024 * 1024

/-- `HEADER_LEN` from `src/tests/resistance/fuzzing.rs`. -/
def HEADER_LEN : Nat := 24

/-- Pad an ASCII command name with NULs to the 12-byte command field. -/
def cmdPad (s : List Nat) : List Nat := s ++ List.replicate (12 - s.length) 0

def VERSION_COMMAND : List Nat := cmdPad [118, 101, 114, 115, 105, 111, 110]
def VERACK_COMMAND : List Nat := cmdPad [118, 101, 114, 97, 99, 107]
def PING_COMMAND : List Nat := cmdPad [112, 105, 110, 103]
def PONG_COMMAND : List Nat := cmdPad [112, 111, 110, 103]
def GETADDR_COMMAND : List Nat := cmdPad [103, 101, 116, 97, 100, 100, 114]
def ADDR_COMMAND : List Nat := cmdPad [97, 100, 100, 114]
def GETHEADERS_COMMAND : List Nat := cmdPad [103, 101, 116, 104, 101, 97, 100, 101, 114, 115]
def HEADERS_COMMAND : List Nat := cmdPad [104, 101, 97, 100, 101, 114, 115]
def GETBLOCKS_COMMAND : List Nat := cmdPad [103, 101, 116, 98, 108, 111, 99, 107, 115]
def BLOCK_COMMAND : List Nat := cmdPad [98, 108, 111, 99, 107]
def GETDATA_COMMAND : List Nat := cmdPad [103, 101, 116, 100, 97, 116, 97]
def INV_COMMAND : List Nat := cmdPad [105, 110, 118]
def NOTFOUND_COMMAND : List Nat := cmdPad [110, 111, 116, 102, 111, 117, 110, 100]
def MEMPOOL_COMMAND : List Nat := cmdPad [109, 101, 109, 112, 111, 111, 108]
def TX_COMMAND : List Nat := cmdPad [116, 120]
def REJECT_COMMAND : List Nat := cmdPad [114, 101, 106, 101, 99, 116]

/-- The sixteen known command identifiers (§6 of the spec, and the `commands`
array of `metadata_compliant_random_bytes` in `fuzzing.rs`). -/
def knownCommands : List (List Nat) :=
  [VERSION_COMMAND, VERACK_COMMAND, PING_COMMAND, PONG_COMMAND,
   GETADDR_COMMAND, ADDR_COMMAND, GETHEADERS_COMMAND, HEADERS_COMMAND,
   GETBLOCKS_COMMAND, BLOCK_COMMAND, GETDATA_COMMAND, INV_COMMAND,
   NOTFOUND_COMMAND, MEMPOOL_COMMAND, TX_COMMAND, REJECT_COMMAND]

/-- Modelled from the spec: the network magic is a fixed network-specific
4-byte constant (§6); its exact value does not matter to any claim. -/
def MAGIC : List Nat := [36, 233, 39, 100]

/-- Modelled from the spec: §3 — the fixed 24-byte message header with 4-byte
magic, 12-byte NUL-padded command, 4-byte little-endian payload length and
4-byte checksum. -/
structure MessageHeader where
  magic : List Nat
  command : List Nat
  len : Nat
  checksum : List Nat
  deriving DecidableEq, Repr

/-- Modelled from the spec: §4.1 — `decode_header` fails with `TruncatedInput`
on fewer than 24 bytes and otherwise reads magic, command, length and checksum
verbatim from the first 24 bytes, with no validity checks of its own. -/
def decode_header (bs : List Nat) : Except ParseError MessageHeader :=
  if bs.length < HEADER_LEN then .error .truncatedInput
  else .ok { magic := bs.take 4
             command := (bs.drop 4).take 12
             len := leVal ((bs.drop 16).take 4)
             checksum := (bs.drop 20).take 4 }

/-- Modelled from the spec: §4.1/§6 — serialize a header as
magic ‖ command ‖ little-endian length ‖ checksum. -/
def encode_header (h : MessageHeader) : List Nat :=
  h.magic ++ h.command ++ leBytes 4 h.len ++ h.checksum

/-- Pad (with zero bytes) or truncate a list to exactly `k` bytes. -/
def padTo (k : Nat) (l : List Nat) : List Nat :=
  l.take k ++ List.replicate (k - l.length) 0

/-- Modelled from the spec: §4.1 — the checksum is the first 4 bytes of
`digest(digest(payload))`; the digest itself is an external hash supplied as
a parameter. -/
def chk (digest : List Nat → List Nat) (payload : List Nat) : List Nat :=
  padTo 4 (digest (digest payload))

/-- Modelled from the spec: §3 — `MessageHeader::new(command, payload)` builds
a header whose `len` is the payload byte count and whose checksum is computed
from the payload. -/
def MessageHeader.new (digest : List Nat → List Nat) (command payload : List Nat) :
    MessageHeader :=
  { magic := MAGIC, command := command, len := payload.length,
    checksum := chk digest payload }

/-! ## Payload types and the Message union

Modelled from the spec: §3/§4.2 — the payload types used by the conformance
logic (`Version`, `Verack`, `Ping`, `Pong`, `GetAddr`, `MemPool`, `Addr`,
`Headers`); their code is not shipped under `src/`.  Field-level wire layout
follows the Bitcoin-derived family the spec names; all multi-byte integers are
little-endian.
-/

/-- A network address as it appears inside a `Version` payload (no
timestamp): services bitmask, 16-byte IP, port. -/
structure NetAddr where
  services : Nat
  ip : List Nat
  port : Nat
  deriving DecidableEq, Repr

/-- Well-formedness: fields fit their wire widths. -/
def NetAddr.WF (a : NetAddr) : Prop :=
  a.services < 256 ^ 8 ∧ a.ip.length = 16 ∧ a.port < 256 ^ 2

/-- A timestamped network address, the element type of `Addr`. -/
structure TimedAddr where
  time : Nat
  addr : NetAddr
  deriving DecidableEq, Repr

def TimedAddr.WF (a : TimedAddr) : Prop := a.time < 256 ^ 4 ∧ a.addr.WF

/-- Modelled from the spec: §3 — the `Version` payload: protocol version,
services bitmask, timestamp, receiver and sender addresses, random nonce,
user-agent string (raw bytes), best height and relay flag. -/
structure VersionPayload where
  protoVersion : Nat
  services : Nat
  timestamp : Nat
  addrRecv : NetAddr
  addrFrom : NetAddr
  nonce : Nat
  userAgent : List Nat
  startHeight : Nat
  relay : Bool
  deriving DecidableEq, Repr

def VersionPayload.WF (v : VersionPayload) : Prop :=
  v.protoVersion < 256 ^ 4 ∧ v.services < 256 ^ 8 ∧ v.timestamp < 256 ^ 8 ∧
  v.addrRecv.WF ∧ v.addrFrom.WF ∧ v.nonce < 256 ^ 8 ∧
  v.userAgent.length < 256 ^ 8 ∧ v.startHeight < 256 ^ 4

/-- Modelled from the spec: §3 — a block-header record of the `Headers`
payload, kept as an opaque fixed-width byte record (its body is framed but not
semantically interpreted by the core). -/
structure BlockHeader where
  raw : List Nat
  deriving DecidableEq, Repr

/-- The fixed width of a block-header record. -/
def BLOCK_HEADER_LEN : Nat := 80

def BlockHeader.WF (b : BlockHeader) : Prop := b.raw.length = BLOCK_HEADER_LEN

/-- Modelled from the spec: §3 — the closed tagged union over supported
commands, with an opaque variant for unrecognized commands. -/
inductive Message where
  | version (v : VersionPayload)
  | verack
  | ping (nonce : Nat)
  | pong (nonce : Nat)
  | getaddr
  | mempool
  | addr (xs : List TimedAddr)
  | headers (hs : List BlockHeader)
  | unknown (command : List Nat) (body : List Nat)
  deriving DecidableEq, Repr

/-- The wire command identifier of a message. -/
def Message.command : Message → List Nat
  | .version _ => VERSION_COMMAND
  | .verack => VERACK_COMMAND
  | .ping _ => PING_COMMAND
  | .pong _ => PONG_COMMAND
  | .getaddr => GETADDR_COMMAND
  | .mempool => MEMPOOL_COMMAND
  | .addr _ => ADDR_COMMAND
  | .headers _ => HEADERS_COMMAND
  | .unknown c _ => c

/-- The supported payload types: every variant except the opaque `unknown`. -/
def Message.supported : Message → Prop
  | .unknown _ _ => False
  | _ => True

/-- Well-formedness of a message's fields with respect to their wire widths. -/
def Message.WF : Message → Prop
  | .version v => v.WF
  | .ping n => n < 256 ^ 8
  | .pong n => n < 256 ^ 8
  | .addr xs => (∀ a ∈ xs, a.WF) ∧ xs.length < 256 ^ 8
  | .headers hs => (∀ b ∈ hs, b.WF) ∧ hs.length < 256 ^ 8
  | .unknown c _ => c.length = 12
  | _ => True

instance (a : NetAddr) : Decidable a.WF := by unfold NetAddr.WF; infer_instance

instance (a : TimedAddr) : Decidable a.WF := by unfold TimedAddr.WF; infer_instance

instance (v : VersionPayload) : Decidable v.WF := by unfold VersionPayload.WF; infer_instance

instance (b : BlockHeader) : Decidable b.WF := by unfold BlockHeader.WF; infer_instance

instance (m : Message) : Decidable m.supported := by
  cases m <;> simp only [Message.supported] <;> infer_instance

instance (m : Message) : Decidable m.WF := by
  cases m <;> simp only [Message.WF] <;> infer_instance

/-! ### Payload encoders -/

def wrNetAddr (a : NetAddr) : List Nat :=
  leBytes 8 a.services ++ a.ip ++ leBytes 2 a.port

def wrTimedAddr (a : TimedAddr) : List Nat :=
  leBytes 4 a.time ++ wrNetAddr a.addr

def wrVersion (v : VersionPayload) : List Nat :=
  leBytes 4 v.protoVersion ++ leBytes 8 v.services ++ leBytes 8 v.timestamp ++
  wrNetAddr v.addrRecv ++ wrNetAddr v.addrFrom ++ leBytes 8 v.nonce ++
  wrCompact v.userAgent.length ++ v.userAgent ++ leBytes 4 v.startHeight ++
  [if v.relay then 1 else 0]

/-- Encode a payload body (without header). -/
def encodePayload : Message → List Nat
  | .version v => wrVersion v
  | .verack => []
  | .ping n => leBytes 8 n
  | .pong n => leBytes 8 n
  | .getaddr => []
  | .mempool => []
  | .addr xs => wrCompact xs.length ++ (xs.map wrTimedAddr).flatten
  | .headers hs => wrCompact hs.length ++ (hs.map (fun b => b.raw)).flatten
  | .unknown _ body => body

/-! ### Payload decoders -/

def rdNetAddr (bs : List Nat) : Except ParseError (NetAddr × List Nat) :=
  match rdLE 8 bs with
  | .error e => .error e
  | .ok (services, r1) =>
    match rdBytes 16 r1 with
    | .error e => .error e
    | .ok (ip, r2) =>
      match rdLE 2 r2 with
      | .error e => .error e
      | .ok (port, r3) => .ok ({ services := services, ip := ip, port := port }, r3)

def rdTimedAddr (bs : List Nat) : Except ParseError (TimedAddr × List Nat) :=
  match rdLE 4 bs with
  | .error e => .error e
  | .ok (time, r1) =>
    match rdNetAddr r1 with
    | .error e => .error e
    | .ok (a, r2) => .ok ({ time := time, addr := a }, r2)

def rdBlockHeader (bs : List Nat) : Except ParseError (BlockHeader × List Nat) :=
  match rdBytes BLOCK_HEADER_LEN bs with
  | .error e => .error e
  | .ok (raw, r1) => .ok ({ raw := raw }, r1)

/-- Read `n` consecutive elements with the element reader `rd`. -/
def rdList (rd : List Nat → Except ParseError (α × List Nat)) :
    Nat → List Nat → Except ParseError (List α × List Nat)
  | 0, bs => .ok ([], bs)
  | n + 1, bs =>
    match rd bs with
    | .error e => .error e
    | .ok (a, r1) =>
      match rdList rd n r1 with
      | .error e => .error e
      | .ok (xs, r2) => .ok (a :: xs, r2)

def rdVersion (bs : List Nat) : Except ParseError (VersionPayload × List Nat) :=
  match rdLE 4 bs with
  | .error e => .error e
  | .ok (protoVersion, r1) =>
  match rdLE 8 r1 with
  | .error e => .error e
  | .ok (services, r2) =>
  match rdLE 8 r2 with
  | .error e => .error e
  | .ok (timestamp, r3) =>
  match rdNetAddr r3 with
  | .error e => .error e
  | .ok (addrRecv, r4) =>
  match rdNetAddr r4 with
  | .error e => .error e
  | .ok (addrFrom, r5) =>
  match rdLE 8 r5 with
  | .error e => .error e
  | .ok (nonce, r6) =>
  match rdCompact r6 with
  | .error e => .error e
  | .ok (ualen, r7) =>
  match rdBytes ualen r7 with
  | .error e => .error e
  | .ok (userAgent, r8) =>
  match rdLE 4 r8 with
  | .error e => .error e
  | .ok (startHeight, r9) =>
  match rdBytes 1 r9 with
  | .error e => .error e
  | .ok (relayByte, r10) =>
    .ok ({ protoVersion := protoVersion, services := services,
           timestamp := timestamp, addrRecv := addrRecv, addrFrom := addrFrom,
           nonce := nonce, userAgent := userAgent, startHeight := startHeight,
           relay := relayByte ≠ [0] }, r10)

/-- Require an empty rest: trailing unconsumed bytes are an error (§4.2). -/
def finishPayload (m : Message) : List Nat → Except ParseError Message
  | [] => .ok m
  | _ :: _ => .error .trailingBytes

/-- Internal command dispatch key. -/
inductive CommandId where
  | cVersion | cVerack | cPing | cPong | cGetaddr | cAddr | cHeaders | cMempool
  | cOther
  deriving DecidableEq, Repr

/-- Map a 12-byte command field to a dispatch key; commands without a decoded
payload type fall into `cOther`. -/
def commandOf (c : List Nat) : CommandId :=
  if c = VERSION_COMMAND then .cVersion
  else if c = VERACK_COMMAND then .cVerack
  else if c = PING_COMMAND then .cPing
  else if c = PONG_COMMAND then .cPong
  else if c = GETADDR_COMMAND then .cGetaddr
  else if c = ADDR_COMMAND then .cAddr
  else if c = HEADERS_COMMAND then .cHeaders
  else if c = MEMPOOL_COMMAND then .cMempool
  else .cOther

/-- Modelled from the spec: §4.2 — strict payload decode dispatched on the
command: trailing bytes are `TrailingBytes`, missing bytes `TruncatedInput`;
an unrecognized command yields the opaque `unknown` variant, never an error. -/
def decodePayload (c : List Nat) (bs : List Nat) : Except ParseError Message :=
  match commandOf c with
  | .cVersion =>
    match rdVersion bs with
    | .error e => .error e
    | .ok (v, rest) => finishPayload (.version v) rest
  | .cVerack => finishPayload .verack bs
  | .cPing =>
    match rdLE 8 bs with
    | .error e => .error e
    | .ok (n, rest) => finishPayload (.ping n) rest
  | .cPong =>
    match rdLE 8 bs with
    | .error e => .error e
    | .ok (n, rest) => finishPayload (.pong n) rest
  | .cGetaddr => finishPayload .getaddr bs
  | .cMempool => finishPayload .mempool bs
  | .cAddr =>
    match rdCompact bs with
    | .error e => .error e
    | .ok (n, r1) =>
      match rdList rdTimedAddr n r1 with
      | .error e => .error e
      | .ok (xs, rest) => finishPayload (.addr xs) rest
  | .cHeaders =>
    match rdCompact bs with
    | .error e => .error e
    | .ok (n, r1) =>
      match rdList rdBlockHeader n r1 with
      | .error e => .error e
      | .ok (hs, rest) => finishPayload (.headers hs) rest
  | .cOther => .ok (.unknown c bs)

/-! ## Frame-level reading and writing

Modelled from the spec: §4.2 — `Message::read_from_stream` reads the 24
header bytes, validates magic, bounds the declared length against the 2 MiB
maximum before touching the body, reads exactly `length` payload bytes,
verifies the checksum and finally dispatches the payload decode.  The stream
is modelled as the list of bytes it will deliver; the result is paired with
the number of bytes consumed from the stream.
-/

def readFromStream (digest : List Nat → List Nat) (s : List Nat) :
    Except ParseError Message × Nat :=
  match decode_header s with
  | .error e => (.error e, s.length)
  | .ok hd =>
    if hd.magic ≠ MAGIC then (.error .headerInvalid, HEADER_LEN)
    else if MAX_MESSAGE_LEN < hd.len then (.error .payloadTooLarge, HEADER_LEN)
    else
      let rest := s.drop HEADER_LEN
      if rest.length < hd.len then (.error .truncatedInput, HEADER_LEN + rest.length)
      else
        let payload := rest.take hd.len
        if chk digest payload ≠ hd.checksum then
          (.error .checksumMismatch, HEADER_LEN + hd.len)
        else
          (decodePayload hd.command payload, HEADER_LEN + hd.len)

/-- Modelled from the spec: §4.2 — `Message::write_to_stream` encodes the
payload, computes the checksum and writes header then payload as one frame. -/
def writeToStream (digest : List Nat → List Nat) (m : Message) : List Nat :=
  let payload := encodePayload m
  encode_header (MessageHeader.new digest m.command payload) ++ payload

/-- The frame of `m` with payload byte `i` overwritten by `b` after encoding,
without recomputing the checksum. -/
def corruptFrame (digest : List Nat → List Nat) (m : Message) (i b : Nat) : List Nat :=
  let payload := encodePayload m
  encode_header (MessageHeader.new digest m.command payload) ++ payload.set i b

/-! ## Transport-error classification (embedded from the test sources) -/

/-- The `std::io::ErrorKind` values the test code distinguishes. -/
inductive IoErrorKind where
  | connectionReset
  | connectionAborted
  | brokenPipe
  | unexpectedEof
  | timedOut
  | otherError
  deriving DecidableEq, Repr

/-- `is_termination_error` from `src/tests/resistance/fuzzing.rs`: true exactly
on `ConnectionReset | ConnectionAborted | BrokenPipe | UnexpectedEof`. -/
def is_termination_error (e : IoErrorKind) : Bool :=
  match e with
  | .connectionReset | .connectionAborted | .brokenPipe | .unexpectedEof => true
  | _ => false

/-- The receive-side error arm of `reject_non_version_replies_to_version`
(`src/tests/conformance/handshake.rs`, step (4)): the kinds accepted as a
valid connection termination when reading; anything else panics. -/
def readArmAccepts (e : IoErrorKind) : Bool :=
  match e with
  | .unexpectedEof | .connectionReset | .connectionAborted => true
  | _ => false

/-- The send-side error arm of `reject_non_version_replies_to_version`
(step (3)): the kinds accepted as a valid connection termination when
writing; anything else panics. -/
def writeArmAccepts (e : IoErrorKind) : Bool :=
  match e with
  | .brokenPipe | .connectionReset | .connectionAborted => true
  | _ => false

/-- Whether a message is a `Version`. -/
def Message.isVersion : Message → Bool
  | .version _ => true
  | _ => false

/-! ## The non-Version-reply rejection scenario (`handshake.rs` 80–203) -/

/-- The `test_messages` vector of `reject_non_version_replies_to_version`
(note `GetAddr` appears twice in the source). -/
def testMessages : List Message :=
  [.getaddr, .mempool, .verack, .ping 0, .pong 0, .getaddr, .addr [], .headers []]

/-- Pass/fail outcome of one test task (`panic!`/failed assertion = failed). -/
inductive TestOutcome where
  | passed
  | failed
  deriving DecidableEq, Repr

/-- The node's observable behaviour towards one connection of the rejection
scenario: the result of the test's step-(1) read, its step-(2) write of the
injected message, its step-(3) `Version` write, its step-(4) read, and any
traffic the node produces afterwards (which the test never reads). -/
structure NodeReaction where
  read1 : Except IoErrorKind Message
  write2 : Option IoErrorKind
  write3 : Option IoErrorKind
  read4 : Except IoErrorKind Message
  afterTraffic : List Message

/-- Embedding of the per-connection task body of
`reject_non_version_replies_to_version` (`handshake.rs` 151–193): the step-(1)
read and step-(2) write are `unwrap`ed (any error panics), the step-(3) write
tolerates exactly the `writeArmAccepts` kinds, and the step-(4) read must
yield `Verack` or a `readArmAccepts` error kind.  The task returns after
step (4); `afterTraffic` is never inspected. -/
def rejectConnectionOutcome (r : NodeReaction) : TestOutcome :=
  match r.read1 with
  | .error _ => .failed
  | .ok m1 =>
    if m1.isVersion then
      match r.write2 with
      | some _ => .failed
      | none =>
        match r.write3 with
        | some e => if writeArmAccepts e then .passed else .failed
        | none =>
          match r.read4 with
          | .ok m4 => if m4 = .verack then .passed else .failed
          | .error e => if readArmAccepts e then .passed else .failed
    else .failed

/-- The spec's permitted-outcome set for one rejection-scenario connection,
written from the spec's words (for comparison against
`rejectConnectionOutcome`): after a successful start (initial `Version`
received and the injected message sent), either the handshake completes with
`Verack`, or the connection is terminated at the `Version` write or at the
reply read. -/
def specAccepted (r : NodeReaction) : Prop :=
  (∃ m1, r.read1 = .ok m1 ∧ m1.isVersion = true) ∧ r.write2 = none ∧
  ((r.write3 = none ∧ r.read4 = .ok .verack) ∨
   (∃ e, r.write3 = some e ∧ writeArmAccepts e = true) ∨
   (r.write3 = none ∧ ∃ e, r.read4 = .error e ∧ readArmAccepts e = true))

/-! ## Scenario read operations and the fuzz-loop iteration -/

/-- The test scenarios of the repository. -/
inductive Scenario where
  | fuzzingZeroes
  | fuzzingRandomBytes
  | fuzzingMetadataRandom
  | handshakeResponder
  | handshakeInitiator
  | rejectNonVersion
  deriving DecidableEq, Repr

/-- Whether a scenario is one of the resistance/fuzzing scenarios. -/
def Scenario.isFuzzing : Scenario → Bool
  | .fuzzingZeroes | .fuzzingRandomBytes | .fuzzingMetadataRandom => true
  | _ => false

/-- One blocking message read performed by a scenario, with the explicit
timeout (in seconds) wrapped around it at the call site, if any. -/
structure ScenarioRead where
  scenario : Scenario
  timeoutSecs : Option Nat
  deriving DecidableEq, Repr

/-- Every blocking message read in the test scenarios, as written in the
source: each fuzzing-loop read is wrapped in `timeout(Duration::from_secs(5),
…)` (`fuzzing.rs` 52/92/133); the two reads of `handshake_responder_side`
(`handshake.rs` 30/38), the two reads of `handshake_initiator_side`
(`handshake.rs` 57/65) and the step-(1) and step-(4) reads of
`reject_non_version_replies_to_version` (`handshake.rs` 155/168) call
`Message::read_from_stream` with no timeout. -/
def scenarioReads : List ScenarioRead :=
  [{ scenario := .fuzzingZeroes, timeoutSecs := some 5 },
   { scenario := .fuzzingRandomBytes, timeoutSecs := some 5 },
   { scenario := .fuzzingMetadataRandom, timeoutSecs := some 5 },
   { scenario := .handshakeResponder, timeoutSecs := none },
   { scenario := .handshakeResponder, timeoutSecs := none },
   { scenario := .handshakeInitiator, timeoutSecs := none },
   { scenario := .handshakeInitiator, timeoutSecs := none },
   { scenario := .rejectNonVersion, timeoutSecs := none },
   { scenario := .rejectNonVersion, timeoutSecs := none }]

/-- What the `timeout(…, read_from_stream(…))` expression of a fuzzing-loop
iteration can yield. -/
inductive FuzzReadResult where
  | timedOutElapsed
  | unfiltered (m : Message)
  | ioErr (e : IoErrorKind)

/-- What one fuzzing-loop iteration does with it. -/
inductive FuzzStep where
  | panicked
  | logged (m : Message)
  | acceptedTermination
  deriving DecidableEq, Repr

/-- The `match result` of each fuzzing-loop iteration (`fuzzing.rs` 58–62):
timeout expiry panics, an unfiltered message is logged, an io error is
asserted to be a termination error. -/
def fuzzIterStep : FuzzReadResult → FuzzStep
  | .timedOutElapsed => .panicked
  | .unfiltered m => .logged m
  | .ioErr e => if is_termination_error e then .acceptedTermination else .panicked

/-! ## The message filter

Modelled from the spec: §4.4 — the `MessageFilter` auto-responder and its
bounded `next_unfiltered` read loop are not shipped under `src/`; only their
use from the fuzzing tests is.
-/

/-- Modelled from the spec: §3 — the per-kind filter policy. -/
inductive Filter where
  | autoReply
  | disabled
  deriving DecidableEq, Repr

/-- Modelled from the spec: §4.4 — the canonical auto-reply, when the kind has
one: Ping is answered by Pong with the same nonce, Version by Verack; other
kinds have no reply rule. -/
def autoReplyTo : Message → Option Message
  | .ping n => some (.pong n)
  | .version _ => some .verack
  | _ => none

/-- What one read from the connection yields to the filter loop. -/
inductive FilterEvent where
  | msg (m : Message)
  | ioErr (e : IoErrorKind)

/-- The result of one `next_unfiltered` call. -/
inductive FilterResult where
  | unfiltered (m : Message)
  | terminated (e : IoErrorKind)
  | exhausted (last : Option Message)
  deriving DecidableEq, Repr

/-- The filter's fixed per-call retry budget (§4.4: "a fixed retry budget,
e.g. 10 reads"). -/
def RETRY_BUDGET : Nat := 10

/-- Modelled from the spec: §4.4 — the body of `next_unfiltered`: read one
event; a message whose kind has policy `AutoReply` and a reply rule is
answered and the loop continues with one unit of budget spent; any other
message is returned unfiltered; an io error ends the loop.  When the budget
is exhausted the loop's last outcome (the last auto-replied message) is
yielded instead of reading further.  The pair's second component is the
stream index reached, i.e. the number of reads performed. -/
def nextUnfilteredAux (policy : Message → Filter) (ev : Nat → FilterEvent) :
    Nat → Nat → Option Message → FilterResult × Nat
  | idx, 0, last => (.exhausted last, idx)
  | idx, fuel + 1, _ =>
    match ev idx with
    | .ioErr e => (.terminated e, idx + 1)
    | .msg m =>
      match policy m, autoReplyTo m with
      | .autoReply, some _ => nextUnfilteredAux policy ev (idx + 1) fuel (some m)
      | _, _ => (.unfiltered m, idx + 1)

/-- One `next_unfiltered` call starting with the full retry budget. -/
def nextUnfiltered (policy : Message → Filter) (ev : Nat → FilterEvent) :
    FilterResult × Nat :=
  nextUnfilteredAux policy ev 0 RETRY_BUDGET none

/-! ## The fuzz corpus generators (`fuzzing.rs` 172–232)

The process-wide random source is modelled as explicit streams of draws:
`thread_rng().gen_range(lo..hi)` becomes `genRange lo hi r` applied to a
stream value `r`, and random byte sampling becomes a stream of bytes.
-/

/-- A draw in `[lo, hi)` (the contract of `gen_range(lo..hi)` for `lo < hi`),
produced from an unconstrained random value `r`. -/
def genRange (lo hi r : Nat) : Nat := lo + r % (hi - lo)

/-- `zeroes(n)` from `fuzzing.rs`: `n` buffers of random length in
`[1, MAX_MESSAGE_LEN * 2)`, filled with zero bytes. -/
def zeroes (rng : Nat → Nat) (n : Nat) : List (List Nat) :=
  (List.range n).map (fun i => List.replicate (genRange 1 (MAX_MESSAGE_LEN * 2) (rng i)) 0)

/-- `random_bytes(n)` from `fuzzing.rs`: `n` buffers of random length in
`[1, 64 * 1024)` filled with random bytes. -/
def random_bytes (rngLen : Nat → Nat) (rngByte : Nat → Nat → Nat) (n : Nat) :
    List (List Nat) :=
  (List.range n).map (fun i =>
    (List.range (genRange 1 (64 * 1024) (rngLen i))).map (fun j => rngByte i j % 256))

/-- `metadata_compliant_random_bytes(n)` from `fuzzing.rs`: `n` pairs of a
random payload of length in `[1, 64 * 1024)` and a header built by
`MessageHeader::new` from a command chosen from the sixteen known commands. -/
def metadata_compliant_random_bytes (digest : List Nat → List Nat)
    (rngLen : Nat → Nat) (rngByte : Nat → Nat → Nat) (rngCmd : Nat → Nat) (n : Nat) :
    List (MessageHeader × List Nat) :=
  (List.range n).map (fun i =>
    let payload := (List.range (genRange 1 (64 * 1024) (rngLen i))).map
      (fun j => rngByte i j % 256)
    (MessageHeader.new digest
      (knownCommands.getD (rngCmd i % knownCommands.length) VERSION_COMMAND) payload,
     payload))

/-! ## The initiator-handshake scenario (`handshake.rs` 44–77) -/

/-- The outcome of `listener.accept()` and, when it succeeds, of the four
transport operations of the accepted branch in source order: the `Version`
read, the `Version` write, the `Verack` read and the `Verack` write. -/
inductive AcceptOutcome where
  | accepted (readVersion : Except IoErrorKind Message) (writeVersion : Option IoErrorKind)
      (readVerack : Except IoErrorKind Message) (writeVerack : Option IoErrorKind)
  | acceptFailed (e : IoErrorKind)

/-- The observable result of one run of `handshake_initiator_side`. -/
structure InitiatorRun where
  loggedAcceptErrors : List IoErrorKind
  nodeStops : Nat
  outcome : TestOutcome
  handshakeVerified : Bool
  deriving DecidableEq, Repr

/-- Embedding of `handshake_initiator_side` (`handshake.rs` 44–77): an accept
error is only printed (`couldn't get client`), after which `node.stop()` still
runs and the test passes; in the accepted branch every read/write is
`unwrap`ed and the two reads are asserted to be `Version` then `Verack` — any
failure panics before `node.stop()` is reached. -/
def handshake_initiator_side (acc : AcceptOutcome) : InitiatorRun :=
  match acc with
  | .acceptFailed e =>
    { loggedAcceptErrors := [e], nodeStops := 1, outcome := .passed,
      handshakeVerified := false }
  | .accepted rv wv rk wk =>
    match rv with
    | .error _ =>
      { loggedAcceptErrors := [], nodeStops := 0, outcome := .failed,
        handshakeVerified := false }
    | .ok mv =>
      if mv.isVersion then
        match wv with
        | some _ =>
          { loggedAcceptErrors := [], nodeStops := 0, outcome := .failed,
            handshakeVerified := false }
        | none =>
          match rk with
          | .error _ =>
            { loggedAcceptErrors := [], nodeStops := 0, outcome := .failed,
              handshakeVerified := false }
          | .ok mk =>
            if mk = .verack then
              match wk with
              | some _ =>
                { loggedAcceptErrors := [], nodeStops := 0, outcome := .failed,
                  handshakeVerified := false }
              | none =>
                { loggedAcceptErrors := [], nodeStops := 1, outcome := .passed,
                  handshakeVerified := true }
            else
              { loggedAcceptErrors := [], nodeStops := 0, outcome := .failed,
                handshakeVerified := false }
      else
        { loggedAcceptErrors := [], nodeStops := 0, outcome := .failed,
          handshakeVerified := false }

/-! ## Lemmas about the primitives -/

theorem leBytes_length (k n : Nat) : (leBytes k n).length = k := by
  induction k generalizing n with
  | zero => rfl
  | succ k ih => simp [leBytes, ih]

theorem leVal_leBytes (k n : Nat) (h : n < 256 ^ k) : leVal (leBytes k n) = n := by
  induction k generalizing n with
  | zero =>
    simp [Nat.pow_zero] at h
    simp [leBytes, leVal, h]
  | succ k ih =>
    have hdiv : n / 256 < 256 ^ k :=
      Nat.div_lt_of_lt_mul (by rw [pow_succ] at h; omega)
    simp only [leBytes, leVal, ih (n / 256) hdiv]
    omega

theorem leBytes_lt (k n : Nat) : ∀ b ∈ leBytes k n, b < 256 := by
  induction k generalizing n with
  | zero => intro b hb; simp [leBytes] at hb
  | succ k ih =>
    intro b hb
    simp only [leBytes, List.mem_cons] at hb
    rcases hb with h | h
    · omega
    · exact ih (n / 256) b h

theorem rdBytes_append (xs rest : List Nat) :
    rdBytes xs.length (xs ++ rest) = .ok (xs, rest) := by
  simp [rdBytes, List.take_left, List.drop_left]

theorem rdBytes_exact (k : Nat) (xs rest : List Nat) (h : xs.length = k) :
    rdBytes k (xs ++ rest) = .ok (xs, rest) := by
  subst h; exact rdBytes_append xs rest

theorem rdLE_leBytes (k n : Nat) (rest : List Nat) (h : n < 256 ^ k) :
    rdLE k (leBytes k n ++ rest) = .ok (n, rest) := by
  simp [rdLE, rdBytes_exact k (leBytes k n) rest (leBytes_length k n), leVal_leBytes k n h]

theorem rdCompact_wrCompact (n : Nat) (rest : List Nat) (h : n < 256 ^ 8) :
    rdCompact (wrCompact n ++ rest) = .ok (n, rest) := by
  by_cases h1 : n < 0xFD
  · simp [wrCompact, rdCompact, h1]
  · by_cases h2 : n ≤ 0xFFFF
    · have : ¬ (0xFD : Nat) < 0xFD := by omega
      simp [wrCompact, rdCompact, h1, h2, this, rdLE_leBytes 2 n rest (by norm_num; omega)]
    · by_cases h3 : n ≤ 0xFFFFFFFF
      · simp [wrCompact, rdCompact, h1, h2, h3, rdLE_leBytes 4 n rest (by norm_num; omega)]
      · simp [wrCompact, rdCompact, h1, h2, h3, rdLE_leBytes 8 n rest (by norm_num at h ⊢; omega)]

theorem take_append_len (xs ys : List Nat) (k : Nat) (h : xs.length = k) :
    (xs ++ ys).take k = xs := by
  subst h; exact List.take_left xs ys

theorem drop_append_len (xs ys : List Nat) (k : Nat) (h : xs.length = k) :
    (xs ++ ys).drop k = ys := by
  subst h; exact List.drop_left xs ys

theorem padTo_length (k : Nat) (l : List Nat) : (padTo k l).length = k := by
  simp [padTo]; omega

/-! ## Round-trip lemmas for the payload codecs -/

theorem rdNetAddr_wrNetAddr (a : NetAddr) (rest : List Nat) (h : a.WF) :
    rdNetAddr (wrNetAddr a ++ rest) = .ok (a, rest) := by
  obtain ⟨hs, hip, hp⟩ := h
  simp only [wrNetAddr, List.append_assoc]
  simp [rdNetAddr, rdLE_leBytes 8 a.services _ hs, rdBytes_exact 16 a.ip _ hip,
    rdLE_leBytes 2 a.port _ hp]

theorem rdTimedAddr_wrTimedAddr (a : TimedAddr) (rest : List Nat) (h : a.WF) :
    rdTimedAddr (wrTimedAddr a ++ rest) = .ok (a, rest) := by
  obtain ⟨ht, ha⟩ := h
  simp only [wrTimedAddr, List.append_assoc]
  simp [rdTimedAddr, rdLE_leBytes 4 a.time _ ht, rdNetAddr_wrNetAddr a.addr rest ha]

theorem rdBlockHeader_raw (b : BlockHeader) (rest : List Nat) (h : b.WF) :
    rdBlockHeader (b.raw ++ rest) = .ok (b, rest) := by
  simp [rdBlockHeader, rdBytes_exact BLOCK_HEADER_LEN b.raw rest h]

theorem rdList_flatten {α : Type} (rd : List Nat → Except ParseError (α × List Nat))
    (wr : α → List Nat) (xs : List α) (rest : List Nat)
    (h : ∀ x ∈ xs, ∀ r : List Nat, rd (wr x ++ r) = .ok (x, r)) :
    rdList rd xs.length ((xs.map wr).flatten ++ rest) = .ok (xs, rest) := by
  induction xs with
  | nil => simp [rdList]
  | cons x t ih =>
    have hx := h x (List.mem_cons_self x t)
    simp only [List.map_cons, List.flatten_cons, List.length_cons, List.append_assoc]
    simp only [rdList, hx ((t.map wr).flatten ++ rest)]
    rw [ih (fun y hy r => h y (List.mem_cons_of_mem x hy) r)]

theorem rdVersion_wrVersion (v : VersionPayload) (rest : List Nat) (h : v.WF) :
    rdVersion (wrVersion v ++ rest) = .ok (v, rest) := by
  obtain ⟨h1, h2, h3, h4, h5, h6, h7, h8⟩ := h
  simp only [wrVersion, List.append_assoc]
  simp only [rdVersion,
    rdLE_leBytes 4 v.protoVersion _ h1,
    rdLE_leBytes 8 v.services _ h2,
    rdLE_leBytes 8 v.timestamp _ h3,
    rdNetAddr_wrNetAddr v.addrRecv _ h4,
    rdNetAddr_wrNetAddr v.addrFrom _ h5,
    rdLE_leBytes 8 v.nonce _ h6,
    rdCompact_wrCompact v.userAgent.length _ h7,
    rdBytes_exact v.userAgent.length v.userAgent _ rfl,
    rdLE_leBytes 4 v.startHeight _ h8]
  rw [rdBytes_exact 1 [if v.relay then 1 else 0] rest (by simp)]
  cases hr : v.relay <;> simp [hr] <;> rw [← hr]

/-- C4: for every supported payload type and every constructible
(well-formed) value `x`, `decode(encode(x)) = ok x`; the element counts of the
variable-length `Addr` and `Headers` payloads are universally quantified, so
the compact-size boundary counts 0, 1, 0xFC, 0xFD, 0xFFFF and 0x10000 are all
covered. -/
theorem payload_roundtrip (m : Message) (hs : m.supported) (hw : m.WF) :
    decodePayload m.command (encodePayload m) = .ok m := by
  cases m with
  | version v =>
    have hc : commandOf VERSION_COMMAND = .cVersion := by decide
    have e1 : rdVersion (wrVersion v) = .ok (v, []) := by
      have := rdVersion_wrVersion v [] hw
      simpa using this
    simp [Message.command, encodePayload, decodePayload, hc, e1, finishPayload]
  | verack =>
    have hc : commandOf VERACK_COMMAND = .cVerack := by decide
    simp [Message.command, encodePayload, decodePayload, hc, finishPayload]
  | ping n =>
    have hc : commandOf PING_COMMAND = .cPing := by decide
    have e1 : rdLE 8 (leBytes 8 n) = .ok (n, []) := by
      have := rdLE_leBytes 8 n [] hw
      simpa using this
    simp [Message.command, encodePayload, decodePayload, hc, e1, finishPayload]
  | pong n =>
    have hc : commandOf PONG_COMMAND = .cPong := by decide
    have e1 : rdLE 8 (leBytes 8 n) = .ok (n, []) := by
      have := rdLE_leBytes 8 n [] hw
      simpa using this
    simp [Message.command, encodePayload, decodePayload, hc, e1, finishPayload]
  | getaddr =>
    have hc : commandOf GETADDR_COMMAND = .cGetaddr := by decide
    simp [Message.command, encodePayload, decodePayload, hc, finishPayload]
  | mempool =>
    have hc : commandOf MEMPOOL_COMMAND = .cMempool := by decide
    simp [Message.command, encodePayload, decodePayload, hc, finishPayload]
  | addr xs =>
    have hc : commandOf ADDR_COMMAND = .cAddr := by decide
    obtain ⟨hel, hlen⟩ := hw
    have e1 : rdCompact (wrCompact xs.length ++ (xs.map wrTimedAddr).flatten) =
        .ok (xs.length, (xs.map wrTimedAddr).flatten) :=
      rdCompact_wrCompact xs.length _ hlen
    have e2 : rdList rdTimedAddr xs.length (xs.map wrTimedAddr).flatten = .ok (xs, []) := by
      have := rdList_flatten rdTimedAddr wrTimedAddr xs []
        (fun x hx r => rdTimedAddr_wrTimedAddr x r (hel x hx))
      simpa using this
    simp [Message.command, encodePayload, decodePayload, hc, e1, e2, finishPayload]
  | headers hs2 =>
    have hc : commandOf HEADERS_COMMAND = .cHeaders := by decide
    obtain ⟨hel, hlen⟩ := hw
    have e1 : rdCompact (wrCompact hs2.length ++ (hs2.map (fun b => b.raw)).flatten) =
        .ok (hs2.length, (hs2.map (fun b => b.raw)).flatten) :=
      rdCompact_wrCompact hs2.length _ hlen
    have e2 : rdList rdBlockHeader hs2.length (hs2.map (fun b => b.raw)).flatten =
        .ok (hs2, []) := by
      have := rdList_flatten rdBlockHeader (fun b => b.raw) hs2 []
        (fun x hx r => rdBlockHeader_raw x r (hel x hx))
      simpa using this
    simp [Message.command, encodePayload, decodePayload, hc, e1, e2, finishPayload]
  | unknown c body => exact hs.elim

/-- Witness for C4 at a concrete `Addr` value. -/
theorem payload_roundtrip_witness :
    (Message.addr [{ time := 9, addr := { services := 1, ip := List.replicate 16 0, port := 8233 } }]).supported ∧
    (Message.addr [{ time := 9, addr := { services := 1, ip := List.replicate 16 0, port := 8233 } }]).WF ∧
    decodePayload (Message.addr [{ time := 9, addr := { services := 1, ip := List.replicate 16 0, port := 8233 } }]).command
      (encodePayload (Message.addr [{ time := 9, addr := { services := 1, ip := List.replicate 16 0, port := 8233 } }])) =
      .ok (Message.addr [{ time := 9, addr := { services := 1, ip := List.replicate 16 0, port := 8233 } }]) :=
  ⟨by decide, by decide,
    payload_roundtrip
      (Message.addr [{ time := 9, addr := { services := 1, ip := List.replicate 16 0, port := 8233 } }])
      (by decide) (by decide)⟩

/-! ## Header codec lemmas and the header-level claims -/

theorem decode_header_reads (bs : List Nat) :
    (HEADER_LEN ≤ bs.length →
      decode_header bs = .ok { magic := bs.take 4, command := (bs.drop 4).take 12,
                               len := leVal ((bs.drop 16).take 4),
                               checksum := (bs.drop 20).take 4 }) ∧
    (bs.length < HEADER_LEN → decode_header bs = .error .truncatedInput) := by
  constructor
  · intro h
    simp [decode_header, Nat.not_lt.mpr h]
  · intro h
    simp [decode_header, h]

/-- C1: `decode_header` is total: on any input of at least 24 bytes it
returns `some` header whose magic, command, length and checksum are read
verbatim from the bytes; on any shorter input it returns `TruncatedInput`. -/
theorem decode_header_total (bs : List Nat) :
    (HEADER_LEN ≤ bs.length →
      decode_header bs = .ok { magic := bs.take 4, command := (bs.drop 4).take 12,
                               len := leVal ((bs.drop 16).take 4),
                               checksum := (bs.drop 20).take 4 }) ∧
    (bs.length < HEADER_LEN → decode_header bs = .error .truncatedInput) :=
  decode_header_reads bs

/-- Witness for C1 on a 24-byte buffer and on a 3-byte buffer. -/
theorem decode_header_total_witness :
    decode_header (List.replicate 24 7) =
      .ok { magic := (List.replicate 24 7).take 4
            command := ((List.replicate 24 7).drop 4).take 12
            len := leVal (((List.replicate 24 7).drop 16).take 4)
            checksum := ((List.replicate 24 7).drop 20).take 4 } ∧
    decode_header [1, 2, 3] = .error .truncatedInput :=
  ⟨(decode_header_total (List.replicate 24 7)).1 (by decide),
   (decode_header_total [1, 2, 3]).2 (by decide)⟩

theorem decode_header_parts (m4 c12 l4 k4 rest : List Nat)
    (hm : m4.length = 4) (hc : c12.length = 12) (hl : l4.length = 4)
    (hk : k4.length = 4) :
    decode_header (m4 ++ (c12 ++ (l4 ++ (k4 ++ rest)))) =
      .ok { magic := m4, command := c12, len := leVal l4, checksum := k4 } := by
  have hlen : HEADER_LEN ≤ (m4 ++ (c12 ++ (l4 ++ (k4 ++ rest)))).length := by
    simp [HEADER_LEN, hm, hc, hl, hk]
    omega
  have e1 : (m4 ++ (c12 ++ (l4 ++ (k4 ++ rest)))).take 4 = m4 := take_append_len _ _ _ hm
  have e2 : (m4 ++ (c12 ++ (l4 ++ (k4 ++ rest)))).drop 4 = c12 ++ (l4 ++ (k4 ++ rest)) :=
    drop_append_len _ _ _ hm
  have e3 : (m4 ++ (c12 ++ (l4 ++ (k4 ++ rest)))).drop 16 = l4 ++ (k4 ++ rest) := by
    have : ((m4 ++ (c12 ++ (l4 ++ (k4 ++ rest)))).drop 4).drop 12 =
        (m4 ++ (c12 ++ (l4 ++ (k4 ++ rest)))).drop 16 := by rw [List.drop_drop]
    rw [← this, e2, drop_append_len _ _ _ hc]
  have e4 : (m4 ++ (c12 ++ (l4 ++ (k4 ++ rest)))).drop 20 = k4 ++ rest := by
    have : ((m4 ++ (c12 ++ (l4 ++ (k4 ++ rest)))).drop 16).drop 4 =
        (m4 ++ (c12 ++ (l4 ++ (k4 ++ rest)))).drop 20 := by rw [List.drop_drop]
    rw [← this, e3, drop_append_len _ _ _ hl]
  rw [(decode_header_reads _).1 hlen, e1, e2, e3, e4,
    take_append_len _ _ _ hc, take_append_len _ _ _ hl, take_append_len _ _ _ hk]

theorem Message.command_length (m : Message) (hw : m.WF) : m.command.length = 12 := by
  cases m <;> first | exact hw | rfl

theorem encode_header_length (h : MessageHeader)
    (hm : h.magic.length = 4) (hc : h.command.length = 12) (hk : h.checksum.length = 4) :
    (encode_header h).length = HEADER_LEN := by
  simp [encode_header, hm, hc, hk, leBytes_length, HEADER_LEN]

/-- C2: flipping any single payload byte of an encoded frame, without
recomputing the checksum, makes `read_from_stream` fail with
`ChecksumMismatch` (and in particular never succeed), provided the external
digest separates the two payloads in its first four bytes. -/
theorem checksum_flip_rejected (digest : List Nat → List Nat) (m : Message) (i b : Nat)
    (hw : m.WF)
    (hi : i < (encodePayload m).length)
    (hb : b ≠ (encodePayload m).get ⟨i, hi⟩)
    (hlen : (encodePayload m).length ≤ MAX_MESSAGE_LEN)
    (hchk : chk digest ((encodePayload m).set i b) ≠ chk digest (encodePayload m)) :
    (readFromStream digest (corruptFrame digest m i b)).1 = .error .checksumMismatch := by
  have hcmd : m.command.length = 12 := Message.command_length m hw
  have hset : ((encodePayload m).set i b).length = (encodePayload m).length :=
    List.length_set _ _ _
  have hhdr : decode_header (corruptFrame digest m i b) =
      .ok (MessageHeader.new digest m.command (encodePayload m)) := by
    have := decode_header_parts MAGIC m.command (leBytes 4 (encodePayload m).length)
      (chk digest (encodePayload m)) ((encodePayload m).set i b)
      (by decide) hcmd (leBytes_length 4 _) (padTo_length 4 _)
    rw [leVal_leBytes 4 (encodePayload m).length
      (lt_of_le_of_lt hlen (by decide))] at this
    simpa [corruptFrame, encode_header, MessageHeader.new, chk, List.append_assoc] using this
  have hdrop : (corruptFrame digest m i b).drop HEADER_LEN = (encodePayload m).set i b := by
    have hel : (encode_header (MessageHeader.new digest m.command (encodePayload m))).length =
        HEADER_LEN :=
      encode_header_length _ rfl hcmd (padTo_length 4 _)
    simpa [corruptFrame] using
      drop_append_len (encode_header (MessageHeader.new digest m.command (encodePayload m)))
        ((encodePayload m).set i b) HEADER_LEN hel
  simp only [readFromStream, hhdr, hdrop]
  have htake : List.take (encodePayload m).length ((encodePayload m).set i b) =
      (encodePayload m).set i b := by
    rw [← hset]
    exact List.take_length _
  simp [MessageHeader.new, Nat.not_lt.mpr hlen, hset, htake, hchk]

/-- Witness for C2: the `Ping 0` frame with payload byte 0 overwritten by 1,
under the identity digest. -/
theorem checksum_flip_rejected_witness :
    (readFromStream id (corruptFrame id (Message.ping 0) 0 1)).1 =
      .error .checksumMismatch :=
  checksum_flip_rejected id (Message.ping 0) 0 1 (by decide) (by decide) (by decide)
    (by decide) (by decide)

/-- C3: a frame whose header carries the network magic but declares a payload
length above `MAX_MESSAGE_LEN` is rejected with `PayloadTooLarge` after
consuming only the 24 header bytes — no payload byte is read. -/
theorem oversized_length_rejected (digest : List Nat → List Nat) (s : List Nat)
    (h24 : HEADER_LEN ≤ s.length) (hmag : s.take 4 = MAGIC)
    (hbig : MAX_MESSAGE_LEN < leVal ((s.drop 16).take 4)) :
    readFromStream digest s = (.error .payloadTooLarge, HEADER_LEN) := by
  have hd := (decode_header_reads s).1 h24
  simp [readFromStream, hd, hmag, hbig]

/-- Witness for C3: a header declaring `MAX_MESSAGE_LEN + 1` payload bytes. -/
theorem oversized_length_rejected_witness :
    readFromStream id
      (MAGIC ++ (List.replicate 12 0 ++ (leBytes 4 (MAX_MESSAGE_LEN + 1) ++ List.replicate 4 0))) =
      (.error .payloadTooLarge, HEADER_LEN) :=
  oversized_length_rejected id _ (by decide) (by decide) (by decide)

/-! ## Scenario claims -/

/-- C5 counterexample: a node that completes the handshake (`Verack`) and then
sends further traffic is a passing outcome for
`reject_non_version_replies_to_version` — the task returns after step (4) and
never observes the extra traffic — contradicting the claim that a successful
`Verack` followed by further unexpected traffic is a failing outcome. -/
theorem reject_post_verack_traffic_passes :
    rejectConnectionOutcome
      { read1 := .ok (.version
          { protoVersion := 0, services := 0, timestamp := 0,
            addrRecv := { services := 0, ip := List.replicate 16 0, port := 0 },
            addrFrom := { services := 0, ip := List.replicate 16 0, port := 0 },
            nonce := 0, userAgent := [], startHeight := 0, relay := false }),
        write2 := none, write3 := none, read4 := .ok .verack,
        afterTraffic := [.ping 0] } = .passed ∧
    ([Message.ping 0] : List Message) ≠ [] := by
  constructor
  · decide
  · decide

/-- C5 (amended): provided the step-(1) `Version` read and the step-(2)
injected-message write succeed, a rejection-scenario connection passes exactly
when the node either completes the handshake (`Verack` at step (4)) or
terminates the connection at the step-(3) write or the step-(4) read (with the
per-arm accepted error kinds); any other observed message or error — a timeout
error kind included — fails.  Traffic after a successful `Verack` is never
observed. -/
theorem reject_outcome_characterization (r : NodeReaction) :
    rejectConnectionOutcome r = .passed ↔ specAccepted r := by
  obtain ⟨r1, w2, w3, r4, aft⟩ := r
  cases r1 with
  | error e => simp [rejectConnectionOutcome, specAccepted]
  | ok m1 =>
    by_cases h1 : m1.isVersion = true
    · cases w2 with
      | some e => simp [rejectConnectionOutcome, specAccepted, h1]
      | none =>
        cases w3 with
        | some e =>
          by_cases hw : writeArmAccepts e = true <;>
            simp [rejectConnectionOutcome, specAccepted, h1, hw]
        | none =>
          cases r4 with
          | ok m4 =>
            by_cases hm : m4 = Message.verack <;>
              simp [rejectConnectionOutcome, specAccepted, h1, hm]
          | error e =>
            by_cases hr : readArmAccepts e = true <;>
              simp [rejectConnectionOutcome, specAccepted, h1, hr]
    · simp [rejectConnectionOutcome, specAccepted, h1]

/-- C6 counterexample: `BrokenPipe` is one of the four canonical termination
conditions (`is_termination_error` accepts it), yet the rejection scenario's
read arm does not accept it — a `BrokenPipe` surfacing on that read panics the
test, so the four conditions are not all accepted on both reads and writes. -/
theorem broken_pipe_read_not_accepted :
    is_termination_error .brokenPipe = true ∧ readArmAccepts .brokenPipe = false := by
  decide

/-- C6 (amended): `is_termination_error` (used by the fuzzing scenarios on
read errors) classifies exactly the four canonical conditions as termination;
the rejection handshake scenario accepts exactly
`{UnexpectedEof, ConnectionReset, ConnectionAborted}` on its read and exactly
`{BrokenPipe, ConnectionReset, ConnectionAborted}` on its write; every other
transport error kind is a test failure. -/
theorem termination_error_classification (e : IoErrorKind) :
    (is_termination_error e = true ↔
      (e = .connectionReset ∨ e = .connectionAborted ∨ e = .brokenPipe ∨
       e = .unexpectedEof)) ∧
    (readArmAccepts e = true ↔
      (e = .unexpectedEof ∨ e = .connectionReset ∨ e = .connectionAborted)) ∧
    (writeArmAccepts e = true ↔
      (e = .brokenPipe ∨ e = .connectionReset ∨ e = .connectionAborted)) := by
  cases e <;> decide

/-- C7 counterexample: not every blocking read performed by a scenario carries
an explicit timeout — the conformance scenarios call
`Message::read_from_stream` bare. -/
theorem conformance_read_without_timeout :
    ¬ (∀ r ∈ scenarioReads, r.timeoutSecs.isSome = true) := by
  decide

/-- C7 (amended): exactly the reads of the three fuzzing scenarios carry an
explicit (5 second) timeout, while the conformance handshake/rejection
scenarios read without one; in the fuzzing loop a timeout expiry is handled
differently from (hence distinguishable from) a transport-level
termination. -/
theorem scenario_read_timeouts :
    (∀ r ∈ scenarioReads,
      r.timeoutSecs = if r.scenario.isFuzzing then some 5 else none) ∧
    (∀ e : IoErrorKind, is_termination_error e = true →
      fuzzIterStep .timedOutElapsed ≠ fuzzIterStep (.ioErr e)) := by
  constructor
  · decide
  · intro e
    cases e <;> decide

/-- Witness for C7 at a fuzzing read and at `ConnectionReset`. -/
theorem scenario_read_timeouts_witness :
    ({ scenario := Scenario.fuzzingZeroes, timeoutSecs := some 5 } : ScenarioRead).timeoutSecs =
      (if Scenario.fuzzingZeroes.isFuzzing then some 5 else none) ∧
    fuzzIterStep .timedOutElapsed ≠ fuzzIterStep (.ioErr .connectionReset) :=
  ⟨scenario_read_timeouts.1 _ (by decide),
   scenario_read_timeouts.2 .connectionReset (by decide)⟩

/-! ## Filter budget (C8) -/

theorem nextUnfilteredAux_le (policy : Message → Filter) (ev : Nat → FilterEvent)
    (fuel idx : Nat) (last : Option Message) :
    (nextUnfilteredAux policy ev idx fuel last).2 ≤ idx + fuel := by
  induction fuel generalizing idx last with
  | zero => simp [nextUnfilteredAux]
  | succ f ih =>
    simp only [nextUnfilteredAux]
    cases hev : ev idx with
    | ioErr e =>
      simp only [hev]
      exact (by omega : idx + 1 ≤ idx + (f + 1))
    | msg m =>
      simp only [hev]
      cases hp : policy m with
      | autoReply =>
        cases ha : autoReplyTo m with
        | some rep =>
          simp only [hp, ha]
          exact le_trans (ih (idx + 1) (some m)) (by omega : idx + 1 + f ≤ idx + (f + 1))
        | none =>
          simp only [hp, ha]
          exact (by omega : idx + 1 ≤ idx + (f + 1))
      | disabled =>
        simp only [hp]
        exact (by omega : idx + 1 ≤ idx + (f + 1))

theorem nextUnfilteredAux_step (policy : Message → Filter) (ev : Nat → FilterEvent)
    (idx fuel : Nat) (last : Option Message)
    (hev : ev idx = .msg (.ping 0)) (hp : policy (.ping 0) = .autoReply) :
    nextUnfilteredAux policy ev idx (fuel + 1) last =
      nextUnfilteredAux policy ev (idx + 1) fuel (some (.ping 0)) := by
  simp only [nextUnfilteredAux, hev, hp, autoReplyTo]

theorem nextUnfilteredAux_flood (policy : Message → Filter) (ev : Nat → FilterEvent)
    (hp : policy (.ping 0) = .autoReply) (hev : ∀ i, ev i = .msg (.ping 0)) :
    ∀ fuel idx last, nextUnfilteredAux policy ev idx (fuel + 1) last =
      (.exhausted (some (.ping 0)), idx + fuel + 1) := by
  intro fuel
  induction fuel with
  | zero =>
    intro idx last
    rw [nextUnfilteredAux_step policy ev idx 0 last (hev idx) hp]
    simp [nextUnfilteredAux]
  | succ f ih =>
    intro idx last
    rw [nextUnfilteredAux_step policy ev idx (f + 1) last (hev idx) hp,
      ih (idx + 1) (some (.ping 0))]
    have harith : idx + 1 + f + 1 = idx + (f + 1) + 1 := by omega
    rw [harith]

/-- C8: a `next_unfiltered` call performs at most the fixed retry budget of
10 reads, and on a connection that only ever sends auto-replyable traffic
(repeated `Ping`) it still returns within the budget, yielding the loop's
last outcome (the last auto-replied message) instead of hanging. -/
theorem nextUnfiltered_budget (policy : Message → Filter) (ev : Nat → FilterEvent) :
    (nextUnfiltered policy ev).2 ≤ RETRY_BUDGET ∧
    ((∀ i, ev i = .msg (.ping 0)) → policy (.ping 0) = .autoReply →
      nextUnfiltered policy ev = (.exhausted (some (.ping 0)), RETRY_BUDGET)) := by
  constructor
  · simpa using nextUnfilteredAux_le policy ev RETRY_BUDGET 0 none
  · intro hev hp
    have := nextUnfilteredAux_flood policy ev hp hev 9 0 none
    simpa [nextUnfiltered, RETRY_BUDGET] using this

/-- Witness for C8: the all-auto-reply filter on a stream of `Ping 0`. -/
theorem nextUnfiltered_budget_witness :
    (nextUnfiltered (fun _ => Filter.autoReply)
        (fun _ => FilterEvent.msg (Message.ping 0))).2 ≤ RETRY_BUDGET ∧
    nextUnfiltered (fun _ => Filter.autoReply) (fun _ => FilterEvent.msg (Message.ping 0)) =
      (.exhausted (some (.ping 0)), RETRY_BUDGET) :=
  ⟨(nextUnfiltered_budget _ _).1,
   (nextUnfiltered_budget _ _).2 (fun _ => rfl) rfl⟩

/-! ## Fuzz corpus shape (C9) -/

theorem genRange_bounds (lo hi r : Nat) (h : lo < hi) :
    lo ≤ genRange lo hi r ∧ genRange lo hi r < hi := by
  unfold genRange
  have hm : r % (hi - lo) < hi - lo := Nat.mod_lt _ (by omega)
  omega

theorem getD_mem {α : Type} (l : List α) (d : α) (i : Nat) (h : i < l.length) :
    l.getD i d ∈ l := by
  induction l generalizing i with
  | nil => simp at h
  | cons a t ih =>
    cases i with
    | zero => simp [List.getD]
    | succ j =>
      simp only [List.length_cons] at h
      exact List.mem_cons_of_mem a (ih j (by omega))

/-- C9: for every supply of random draws, `zeroes n` is exactly `n` all-zero
buffers of length in `[1, 2 * MAX_MESSAGE_LEN)`; `random_bytes n` is exactly
`n` buffers of length in `[1, 64 KiB)`; `metadata_compliant_random_bytes n`
is exactly `n` header/payload pairs whose command is one of the sixteen known
identifiers and whose declared length equals the payload's length. -/
theorem fuzz_corpus_shape (digest : List Nat → List Nat)
    (rng rngLen rngCmd : Nat → Nat) (rngByte : Nat → Nat → Nat) (n : Nat) :
    (zeroes rng n).length = n ∧
    (∀ buf ∈ zeroes rng n,
      1 ≤ buf.length ∧ buf.length < MAX_MESSAGE_LEN * 2 ∧ ∀ b ∈ buf, b = 0) ∧
    (random_bytes rngLen rngByte n).length = n ∧
    (∀ buf ∈ random_bytes rngLen rngByte n, 1 ≤ buf.length ∧ buf.length < 64 * 1024) ∧
    (metadata_compliant_random_bytes digest rngLen rngByte rngCmd n).length = n ∧
    (∀ p ∈ metadata_compliant_random_bytes digest rngLen rngByte rngCmd n,
      p.1.command ∈ knownCommands ∧ p.1.len = p.2.length) := by
  refine ⟨?_, ?_, ?_, ?_, ?_, ?_⟩
  · simp [zeroes]
  · intro buf hbuf
    simp only [zeroes, List.mem_map, List.mem_range] at hbuf
    obtain ⟨i, hi, rfl⟩ := hbuf
    have hb := genRange_bounds 1 (MAX_MESSAGE_LEN * 2) (rng i) (by decide)
    refine ⟨by simpa using hb.1, by simpa using hb.2, ?_⟩
    intro b hb2
    exact (List.eq_of_mem_replicate hb2)
  · simp [random_bytes]
  · intro buf hbuf
    simp only [random_bytes, List.mem_map, List.mem_range] at hbuf
    obtain ⟨i, hi, rfl⟩ := hbuf
    have hb := genRange_bounds 1 (64 * 1024) (rngLen i) (by decide)
    exact ⟨by simpa using hb.1, by simpa using hb.2⟩
  · simp [metadata_compliant_random_bytes]
  · intro p hp
    simp only [metadata_compliant_random_bytes, List.mem_map, List.mem_range] at hp
    obtain ⟨i, hi, rfl⟩ := hp
    refine ⟨?_, rfl⟩
    exact getD_mem knownCommands VERSION_COMMAND _
      (Nat.mod_lt _ (by decide))

/-- Witness for C9: the one-element corpora under the constant-zero draws. -/
theorem fuzz_corpus_shape_witness :
    (zeroes (fun _ => 0) 1).length = 1 ∧
    (MessageHeader.new id VERSION_COMMAND [0], ([0] : List Nat)) ∈
      metadata_compliant_random_bytes id (fun _ => 0) (fun _ _ => 0) (fun _ => 0) 1 ∧
    (MessageHeader.new id VERSION_COMMAND [0]).command ∈ knownCommands ∧
    (MessageHeader.new id VERSION_COMMAND [0]).len = ([0] : List Nat).length :=
  ⟨(fuzz_corpus_shape id (fun _ => 0) (fun _ => 0) (fun _ => 0) (fun _ _ => 0) 1).1,
   by decide,
   ((fuzz_corpus_shape id (fun _ => 0) (fun _ => 0) (fun _ => 0) (fun _ _ => 0) 1).2.2.2.2.2
      (MessageHeader.new id VERSION_COMMAND [0], ([0] : List Nat)) (by decide)).1,
   ((fuzz_corpus_shape id (fun _ => 0) (fun _ => 0) (fun _ => 0) (fun _ _ => 0) 1).2.2.2.2.2
      (MessageHeader.new id VERSION_COMMAND [0], ([0] : List Nat)) (by decide)).2⟩

/-- C10: if `listener.accept()` fails in `handshake_initiator_side`, the error
is only logged, the node is still stopped exactly once, and the run completes
as passing with no handshake verified. -/
theorem initiator_accept_failure_passes (e : IoErrorKind) :
    handshake_initiator_side (.acceptFailed e) =
      { loggedAcceptErrors := [e], nodeStops := 1, outcome := .passed,
        handshakeVerified := false } := rfl

end ZcashHarness
